import Mathlib

/- Shallow embedding of the expression pipeline of src/script.js
   (tokenize, toRPN, evalRPN, evaluateExpression).

   Numeric model: JavaScript numbers are IEEE-754 doubles; the embedding
   idealizes them as exact rationals, represented unnormalized as an
   integer numerator/denominator pair so that all operations are
   kernel-computable. `toRat` maps a value to the rational it denotes.
   `Number.EPSILON` is 2^-52 exactly. `String(n)` on a result (always of
   the form k/10^12 after the final rounding step) is modelled as the
   exact positional decimal rendering with trailing fractional zeros
   stripped; the exponent-notation thresholds of JS number formatting
   are outside the model. -/

-- § Values

/-- An idealized JS number: the exact rational num/den, unnormalized. -/
structure JSNum where
  num : Int
  den : Int
deriving DecidableEq, Repr

/-- The rational denoted by a value (meaningful when den ≠ 0). -/
def toRat (v : JSNum) : ℚ := (v.num : ℚ) / (v.den : ℚ)

/-- JS `a + b` on exact rationals. -/
def jsAdd (a b : JSNum) : JSNum := ⟨a.num * b.den + b.num * a.den, a.den * b.den⟩

/-- JS `a - b` on exact rationals. -/
def jsSub (a b : JSNum) : JSNum := ⟨a.num * b.den - b.num * a.den, a.den * b.den⟩

/-- JS `a * b` on exact rationals. -/
def jsMul (a b : JSNum) : JSNum := ⟨a.num * b.num, a.den * b.den⟩

/-- JS `a / b` on exact rationals (the evaluator guards `b === 0` first). -/
def jsDiv (a b : JSNum) : JSNum := ⟨a.num * b.den, a.den * b.num⟩

/-- JS `b === 0`: a double is zero iff its numerator is zero (this is also
true for JS `-0`, since `-0 === 0` holds in JS and the exact-rational model
identifies -0 with 0). -/
def jsIsZero (b : JSNum) : Bool := b.num == 0

-- § Tokens and errors (script.js token objects; error taxonomy from the thrown messages)

/-- Token, as produced by `tokenize` in script.js. -/
inductive Token where
  | number (value : String)
  | operator (value : Char)
  | left_paren
  | right_paren
  | percent
deriving DecidableEq, Repr

/-- The error kinds thrown across the pipeline in script.js. -/
inductive CalcError where
  | invalidCharacter (ch : Char)
  | mismatchedParentheses
  | invalidNumber
  | percentError
  | operatorError
  | divisionByZero
  | unknownOperator
  | unexpectedTokenInRPN
  | invalidExpression
  | mathError
deriving DecidableEq, Repr

deriving instance DecidableEq for Except

-- § Tokenizer (script.js lines 99-136)

/-- The character class `[0-9.]` (and the initial `/\d|\./` test). -/
def isNumChar (c : Char) : Bool := c.isDigit || c == '.'

/-- The unary-minus test of script.js line 120: previous token is absent,
an operator whose value is not '%', or a left paren. -/
def unaryMinusContext (tokens : List Token) : Bool :=
  match tokens.getLast? with
  | none => true
  | some (.operator v) => v != '%'
  | some .left_paren => true
  | _ => false

/-- One pass of the tokenizer loop. `fuel` only bounds the recursion
(each step consumes at least one character, so `cs.length` suffices);
the `fuel = 0` case with pending input is unreachable from `tokenize`. -/
def tokenizeGo (fuel : Nat) (cs : List Char) (tokens : List Token) :
    Except CalcError (List Token) :=
  match cs with
  | [] => .ok tokens
  | ch :: rest =>
    match fuel with
    | 0 => .error .invalidExpression
    | fuel + 1 =>
      if ch.isWhitespace then tokenizeGo fuel rest tokens
      else if isNumChar ch then
        let ds := rest.takeWhile isNumChar
        tokenizeGo fuel (rest.drop ds.length)
          (tokens ++ [.number (ch :: ds).asString])
      else if ch = '+' ∨ ch = '-' ∨ ch = '*' ∨ ch = '/' then
        let tokens' :=
          if ch = '-' ∧ unaryMinusContext tokens then tokens ++ [.number "0"]
          else tokens
        tokenizeGo fuel rest (tokens' ++ [.operator ch])
      else if ch = '(' then tokenizeGo fuel rest (tokens ++ [.left_paren])
      else if ch = ')' then tokenizeGo fuel rest (tokens ++ [.right_paren])
      else if ch = '%' then tokenizeGo fuel rest (tokens ++ [.percent])
      else .error (.invalidCharacter ch)

/-- `tokenize` of script.js. -/
def tokenize (s : String) : Except CalcError (List Token) :=
  tokenizeGo s.toList.length s.toList []

-- § Parser (shunting-yard, script.js lines 139-185; the ops stack top is the list head)

/-- `precedence[o]`; operators outside `+ - * /` get 0 (JS `undefined`
makes both comparisons false, which the 0 default reproduces for the
operators that can actually occur). -/
def precedenceOf (o : Char) : Nat :=
  match o with
  | '+' => 1 | '-' => 1 | '*' => 2 | '/' => 2 | _ => 0

/-- `isLeftAssoc[o]`; operators outside the table are JS `undefined` (falsy). -/
def isLeftAssoc (o : Char) : Bool :=
  o == '+' || o == '-' || o == '*' || o == '/'

/-- The inner while loop of the operator case: pop operators to output
while the associativity/precedence condition holds; stop at a non-operator
top or an operator of lower binding. Returns (new output, remaining ops). -/
def popHigher (o1 : Char) (ops output : List Token) : List Token × List Token :=
  match ops with
  | .operator o2 :: restOps =>
    if (isLeftAssoc o1 && precedenceOf o1 ≤ precedenceOf o2)
        || (!isLeftAssoc o1 && precedenceOf o1 < precedenceOf o2) then
      popHigher o1 restOps (output ++ [.operator o2])
    else (output, ops)
  | _ => (output, ops)

/-- Right-paren loop: pop to output until a left paren is popped
(discarded); `none` when the stack empties first. -/
def popUntilLeftParen (ops output : List Token) :
    Option (List Token × List Token) :=
  match ops with
  | [] => none
  | .left_paren :: restOps => some (output, restOps)
  | t :: restOps => popUntilLeftParen restOps (output ++ [t])

/-- Final drain (script.js lines 178-182): pop remaining ops to output,
failing on any parenthesis. -/
def drainOps (ops output : List Token) : Except CalcError (List Token) :=
  match ops with
  | [] => .ok output
  | .left_paren :: _ => .error .mismatchedParentheses
  | .right_paren :: _ => .error .mismatchedParentheses
  | t :: restOps => drainOps restOps (output ++ [t])

/-- The per-token dispatch of `toRPN`'s forEach. -/
def toRPNGo (ts output ops : List Token) : Except CalcError (List Token) :=
  match ts with
  | [] => drainOps ops output
  | t :: rest =>
    match t with
    | .number _ => toRPNGo rest (output ++ [t]) ops
    | .percent => toRPNGo rest (output ++ [t]) ops
    | .operator o1 =>
      let p := popHigher o1 ops output
      toRPNGo rest p.1 (.operator o1 :: p.2)
    | .left_paren => toRPNGo rest output (.left_paren :: ops)
    | .right_paren =>
      match popUntilLeftParen ops output with
      | none => .error .mismatchedParentheses
      | some p => toRPNGo rest p.1 p.2

/-- `toRPN` of script.js. -/
def toRPN (tokens : List Token) : Except CalcError (List Token) :=
  toRPNGo tokens [] []

-- § Number parsing (the JS `Number(token.value)` builtin, on the digits-and-dots
-- fragment reachable from `tokenize`; other characters cannot occur in a number
-- token, and are mapped to `none` = NaN)

/-- Nat value of a big-endian digit-character list. -/
def ofDigitsBE (cs : List Char) : Nat :=
  Nat.ofDigits 10 (cs.map (fun c => c.toNat - 48)).reverse

/-- JS `Number(t)` idealized to an exact rational; `none` is NaN
(`evalRPN`'s `isFinite` test then fails). `Number("")` is 0 in JS;
a second dot or a bare "." is NaN. -/
def jsNumber (t : String) : Option JSNum :=
  let cs := t.toList
  if cs.isEmpty then some ⟨0, 1⟩
  else if cs.all isNumChar then
    let ip := cs.takeWhile (fun c => c != '.')
    match cs.dropWhile (fun c => c != '.') with
    | [] => some ⟨ofDigitsBE ip, 1⟩
    | _ :: frac =>
      if frac.any (fun c => c == '.') then none
      else if ip.isEmpty && frac.isEmpty then none
      else some ⟨(ofDigitsBE ip : Int) * 10 ^ frac.length + ofDigitsBE frac,
        10 ^ frac.length⟩
  else none

-- § Evaluator (script.js lines 188-221)

/-- The evaluator loop over the RPN sequence, with the numeric stack
(top at the head). -/
def evalGo (rpn : List Token) (stack : List JSNum) :
    Except CalcError (List JSNum) :=
  match rpn with
  | [] => .ok stack
  | t :: rest =>
    match t with
    | .number v =>
      match jsNumber v with
      | none => .error .invalidNumber
      | some n => evalGo rest (n :: stack)
    | .percent =>
      match stack with
      | [] => .error .percentError
      | v :: st => evalGo rest (jsDiv v ⟨100, 1⟩ :: st)
    | .operator op =>
      match stack with
      | b :: a :: st =>
        match op with
        | '+' => evalGo rest (jsAdd a b :: st)
        | '-' => evalGo rest (jsSub a b :: st)
        | '*' => evalGo rest (jsMul a b :: st)
        | '/' =>
          if jsIsZero b then .error .divisionByZero
          else evalGo rest (jsDiv a b :: st)
        | _ => .error .unknownOperator
      | _ => .error .operatorError
    | _ => .error .unexpectedTokenInRPN

/-- `evalRPN` of script.js: run the loop, then require exactly one stack entry. -/
def evalRPN (rpn : List Token) : Except CalcError JSNum :=
  match evalGo rpn [] with
  | .error e => .error e
  | .ok [v] => .ok v
  | .ok _ => .error .invalidExpression

-- § Result rounding and rendering (script.js lines 230-242)

/-- `Number.EPSILON` = 2^-52, exactly. -/
def jsEpsilon : JSNum := ⟨1, 2 ^ 52⟩

/-- The literal `1e12`. -/
def oneE12 : JSNum := ⟨10 ^ 12, 1⟩

/-- `Math.round(x)` = ⌊x + 1/2⌋ (JS rounds half-way cases toward +∞);
on num/den this is the floor division (2·num + den) fdiv (2·den). -/
def jsRound (v : JSNum) : Int := (2 * v.num + v.den).fdiv (2 * v.den)

/-- Little-endian base-10 digits, fuel-bounded (fuel ≥ n suffices). -/
def digitsLE (fuel : Nat) (n : Nat) : List Nat :=
  match fuel with
  | 0 => []
  | fuel + 1 => if n = 0 then [] else n % 10 :: digitsLE fuel (n / 10)

/-- The character of a digit. -/
def digitCharOf (d : Nat) : Char := Char.ofNat (48 + d)

/-- Decimal rendering of a natural number (JS `String(n)` for integers). -/
def natRepr (n : Nat) : String :=
  if n = 0 then "0" else ((digitsLE n n).reverse.map digitCharOf).asString

/-- Positional decimal rendering of m/10^12 for m ≥ 0: integer part, then
the 12-digit fraction with trailing zeros stripped (omitted when zero).
This is JS `String(x)` for results in the positional range. -/
def renderAbs (m : Nat) : String :=
  let i := m / 10 ^ 12
  let f := m % 10 ^ 12
  if f = 0 then natRepr i
  else
    let L := digitsLE f f ++ List.replicate (12 - (digitsLE f f).length) 0
    natRepr i ++ "." ++ ((L.dropWhile (fun d => d == 0)).reverse.map digitCharOf).asString

/-- Count of trailing decimal zeros of m (fuel-bounded; fuel ≥ m suffices). -/
def tzCount (fuel m : Nat) : Nat :=
  match fuel with
  | 0 => 0
  | fuel + 1 => if m ≠ 0 ∧ m % 10 = 0 then tzCount fuel (m / 10) + 1 else 0

/-- ECMA-262 Number::toString's decimal-point position n for the value
m/10^12 (m ≠ 0): with m = s·10^z, s not divisible by 10 and k digits
long, the value is s·10^(n-k) for n = k + z - 12. -/
def decimalPos (m : Nat) : Int :=
  let z := tzCount m m
  ((digitsLE (m / 10 ^ z) (m / 10 ^ z)).length : Int) + z - 12

/-- Whether JS `String` renders m/10^12 with an exponent: per ECMA-262,
exactly when the decimal-point position n satisfies n ≤ -6 or n > 21
(magnitude below 1e-6 or at least 1e21); zero is positional. -/
def expRendered (m : Nat) : Bool :=
  decide (m ≠ 0 ∧ (decimalPos m ≤ -6 ∨ 21 < decimalPos m))

/-- ECMA-262 exponent rendering of m/10^12: leading significand digit,
"." and the remaining digits when there are any, then "e", the
exponent's sign ('+' for a nonnegative exponent), and its digits. -/
def renderExp (m : Nat) : String :=
  let z := tzCount m m
  let s := m / 10 ^ z
  let ds := (digitsLE s s).reverse.map digitCharOf
  let e := decimalPos m - 1
  (match ds with
   | [] => ""
   | d :: rest =>
     (String.mk [d]) ++ (if rest.isEmpty then "" else "." ++ rest.asString))
  ++ "e" ++ (if e < 0 then "-" else "+") ++ natRepr e.natAbs

/-- Rendering of n/10^12 for n : ℤ (JS `String` of the rounded result):
sign, then positional decimal or exponent form per the ECMA-262 rule. -/
def renderFixed (n : Int) : String :=
  (if n < 0 then "-" else "") ++
    (if expRendered n.natAbs then renderExp n.natAbs else renderAbs n.natAbs)

-- § End-to-end pipeline (script.js lines 224-248, the expression-processing part)

/-- The pipeline with its distinct error kinds: tokenize, parse, evaluate,
round to 12 decimal digits (`Math.round((result + Number.EPSILON) * 1e12) / 1e12`),
render. The `isFinite`/`isNaN` guard of line 230 cannot fire in the
exact-rational model (no NaN or infinity exists), so `mathError` is unreachable. -/
def evaluateExpressionE (s : String) : Except CalcError String :=
  match tokenize s with
  | .error e => .error e
  | .ok ts =>
    match toRPN ts with
    | .error e => .error e
    | .ok rpn =>
      match evalRPN rpn with
      | .error e => .error e
      | .ok v => .ok (renderFixed (jsRound (jsMul (jsAdd v jsEpsilon) oneE12)))

/-- Every number token the tokenizer can emit: nonempty text made of
digits and dots only (an implicit "0", or a maximal `[0-9.]` run). -/
def numberTextOk (t : Token) : Bool :=
  match t with
  | .number v => !(v == "") && v.toList.all isNumChar
  | _ => true

/-- The spec's §3 data-model invariant on a Number token's text, stated
from the spec's words: at most one '.', and at least one digit or a
leading "0." form. -/
def specNumberInvariant (t : String) : Prop :=
  t.toList.count '.' ≤ 1 ∧ (t.toList.any Char.isDigit = true ∨ t.startsWith "0." = true)

/-- Number or percent token (the tokens the parser sends straight to output). -/
def isNumOrPct (t : Token) : Bool :=
  match t with
  | .number _ => true
  | .percent => true
  | _ => false

instance (t : String) : Decidable (specNumberInvariant t) := by
  unfold specNumberInvariant
  infer_instance

-- § Concrete-example claims

/-- C1: the spec's unary-minus examples against the code. "-5+3" and
"(-2)*3" give the spec's values, but "3*-2" evaluates to "-2", not the
spec's "-6": the implicit zero becomes the right operand of '*', so the
parser produces `3 0 * 2 -` and the evaluator computes (3*0)-2. -/
theorem c1_unary_minus_examples :
    evaluateExpressionE "-5+3" = .ok "-2" ∧
    evaluateExpressionE "(-2)*3" = .ok "-6" ∧
    evaluateExpressionE "3*-2" = .ok "-2" := by
  refine ⟨by decide, by decide, by decide⟩

/-- C2 counterexample: "+5" does underflow: the tokenizer inserts an
implicit zero only for '-', so "+5" parses to the RPN `5 +` and the
evaluator fails with OperatorError on a one-element stack. -/
theorem c2_plus_five_underflows :
    evaluateExpressionE "+5" = .error .operatorError := by decide

/-- C2 amended: for "+5" the tokenizer emits no implicit zero (the
normalization applies only to '-') and evaluation fails with
OperatorError; for "-5" the implicit zero is inserted and evaluation
succeeds without underflow. -/
theorem c2_unary_normalization :
    tokenize "+5" = .ok [.operator '+', .number "5"] ∧
    tokenize "-5" = .ok [.number "0", .operator '-', .number "5"] ∧
    evaluateExpressionE "-5" = .ok "-5" := by
  refine ⟨by decide, by decide, by decide⟩

/-- C3 counterexample: tokenize succeeds on "1.2.3" and emits a Number
token whose text has two dots, violating the spec's data-model invariant. -/
theorem c3_invariant_violated :
    tokenize "1.2.3" = .ok [.number "1.2.3"] ∧ ¬ specNumberInvariant "1.2.3" := by
  refine ⟨by decide, by decide⟩

/-- C5: precedence and parentheses: "2+3*4" evaluates to "14" and
"(2+3)*4" to "20". -/
theorem c5_precedence_examples :
    evaluateExpressionE "2+3*4" = .ok "14" ∧
    evaluateExpressionE "(2+3)*4" = .ok "20" := by
  refine ⟨by decide, by decide⟩

/-- C6: postfix percent divides the most recently pushed operand by 100
and binds only to it: "50%" gives "0.5", "200+10%" gives "200.1", and at
the evaluator a percent step pops exactly the top value v and pushes
v/100, leaving the rest of the stack untouched. -/
theorem c6_percent_binding :
    evaluateExpressionE "50%" = .ok "0.5" ∧
    evaluateExpressionE "200+10%" = .ok "200.1" ∧
    ∀ (rest : List Token) (v : JSNum) (st : List JSNum),
      evalGo (.percent :: rest) (v :: st) = evalGo rest (jsDiv v ⟨100, 1⟩ :: st) :=
  ⟨by decide, by decide, fun _ _ _ => rfl⟩

/-- C7: "5/0" fails with DivisionByZero, and a division step errors
exactly when the popped right operand denotes zero (for any well-formed
value, i.e. nonzero denominator in the exact-rational model). -/
theorem c7_division_by_zero :
    evaluateExpressionE "5/0" = .error .divisionByZero ∧
    ∀ (rest : List Token) (b a : JSNum) (st : List JSNum), b.den ≠ 0 →
      evalGo (.operator '/' :: rest) (b :: a :: st) =
        if toRat b = 0 then .error .divisionByZero
        else evalGo rest (jsDiv a b :: st) := by
  refine ⟨by decide, ?_⟩
  intro rest b a st hden
  have hz : (toRat b = 0) ↔ (b.num = 0) := by
    unfold toRat
    rw [div_eq_zero_iff]
    constructor
    · rintro (h | h)
      · exact_mod_cast h
      · exact absurd (by exact_mod_cast h) hden
    · intro h
      exact Or.inl (by exact_mod_cast h)
  show (if jsIsZero b then _ else _) = _
  by_cases h : b.num = 0
  · rw [if_pos (by simpa [jsIsZero]), if_pos (hz.mpr h)]
  · rw [if_neg (by simpa [jsIsZero]), if_neg (fun hc => h (hz.mp hc))]

/-- C7 witness: the division step applied to the concrete stack [0/2, 5]
raises DivisionByZero. -/
theorem c7_division_by_zero_witness :
    evalGo [.operator '/'] [⟨0, 2⟩, ⟨5, 1⟩] =
      if toRat ⟨0, 2⟩ = 0 then .error .divisionByZero
      else evalGo [] [jsDiv ⟨5, 1⟩ ⟨0, 2⟩] :=
  c7_division_by_zero.2 [] ⟨0, 2⟩ ⟨5, 1⟩ [] (by decide)

/-- C8: unbalanced parentheses are rejected with MismatchedParentheses:
"(1+2" fails when the operator stack is drained at end of input, "1+2)"
fails when a right paren finds no matching left paren. -/
theorem c8_mismatched_parentheses :
    evaluateExpressionE "(1+2" = .error .mismatchedParentheses ∧
    evaluateExpressionE "1+2)" = .error .mismatchedParentheses := by
  refine ⟨by decide, by decide⟩

/-- C9: a right operand of "/" that is the zero produced by "(0-1)*0"
(JS -0; the exact-rational model identifies -0 with 0, as does the JS
test `b === 0`) raises DivisionByZero just like +0. -/
theorem c9_negative_zero_division :
    evaluateExpressionE "5/((0-1)*0)" = .error .divisionByZero ∧
    evaluateExpressionE "5/(0*1)" = .error .divisionByZero := by
  refine ⟨by decide, by decide⟩

-- § Tokenizer invariant (C3)

theorem numberTextOk_operator (c : Char) : numberTextOk (.operator c) = true := rfl

theorem numberTextOk_zero : numberTextOk (.number "0") = true := by decide

theorem numberTextOk_scan (ch : Char) (rest : List Char) (h2 : isNumChar ch = true) :
    numberTextOk (.number ((ch :: rest.takeWhile isNumChar).asString)) = true := by
  have htl : ((ch :: rest.takeWhile isNumChar).asString).toList
      = ch :: rest.takeWhile isNumChar := rfl
  have hne : (((ch :: rest.takeWhile isNumChar).asString) == "") = false := rfl
  simp only [numberTextOk, htl, hne, List.all_cons, h2, List.all_takeWhile,
    Bool.not_false, Bool.true_and, Bool.and_self]

theorem tokenizeGo_numberTextOk (fuel : Nat) :
    ∀ (cs : List Char) (acc res : List Token),
      tokenizeGo fuel cs acc = .ok res → acc.all numberTextOk = true →
      res.all numberTextOk = true := by
  induction fuel with
  | zero =>
    intro cs acc res h hacc
    cases cs with
    | nil =>
      simp only [tokenizeGo, Except.ok.injEq] at h
      exact h ▸ hacc
    | cons ch rest => simp [tokenizeGo] at h
  | succ fuel ih =>
    intro cs acc res h hacc
    cases cs with
    | nil =>
      simp only [tokenizeGo, Except.ok.injEq] at h
      exact h ▸ hacc
    | cons ch rest =>
      simp only [tokenizeGo] at h
      split_ifs at h with h1 h2 h3 h4 h5 h6 h7
      · exact ih rest acc res h hacc
      · exact ih _ _ _ h (by
          rw [List.all_append, hacc]
          simp [numberTextOk_scan ch rest h2])
      · exact ih _ _ _ h (by
          simp [List.all_append, hacc, numberTextOk_zero, numberTextOk_operator])
      · exact ih _ _ _ h (by
          rw [List.all_append, hacc]
          simp [numberTextOk_operator])
      · exact ih _ _ _ h (by rw [List.all_append, hacc]; simp [numberTextOk])
      · exact ih _ _ _ h (by rw [List.all_append, hacc]; simp [numberTextOk])
      · exact ih _ _ _ h (by rw [List.all_append, hacc]; simp [numberTextOk])

/-- C3 amended: on every input on which tokenize succeeds, every emitted
Number token has nonempty text consisting only of digits and '.' (texts
with several dots or no digit are possible; their rejection is deferred
to the evaluator's number parsing). -/
theorem c3_number_texts (s : String) (ts : List Token) :
    tokenize s = .ok ts → ts.all numberTextOk = true :=
  fun h => tokenizeGo_numberTextOk _ _ _ _ h rfl

/-- C3 witness: the theorem applied to the concrete input "1.5". -/
theorem c3_number_texts_witness : ([Token.number "1.5"]).all numberTextOk = true :=
  c3_number_texts "1.5" [Token.number "1.5"] (by decide)

-- § Parser output-order invariant (C10)

theorem popHigher_filter (o1 : Char) :
    ∀ (ops out : List Token), ops.all (fun t => !isNumOrPct t) = true →
      (popHigher o1 ops out).1.filter isNumOrPct = out.filter isNumOrPct ∧
      (popHigher o1 ops out).2.all (fun t => !isNumOrPct t) = true := by
  intro ops
  induction ops with
  | nil => intro out h; exact ⟨rfl, rfl⟩
  | cons t restOps ih =>
    intro out h
    rw [List.all_cons] at h
    obtain ⟨ht, hrest⟩ := Bool.and_eq_true_iff.mp h
    cases t with
    | operator o2 =>
      simp only [popHigher]
      split_ifs with hc
      · obtain ⟨h1, h2⟩ := ih (out ++ [.operator o2]) hrest
        refine ⟨?_, h2⟩
        rw [h1, List.filter_append]
        simp [isNumOrPct]
      · exact ⟨rfl, h⟩
    | number v => exact ⟨rfl, h⟩
    | percent => exact ⟨rfl, h⟩
    | left_paren => exact ⟨rfl, h⟩
    | right_paren => exact ⟨rfl, h⟩

theorem popUntilLeftParen_filter :
    ∀ (ops out out2 ops2 : List Token), ops.all (fun t => !isNumOrPct t) = true →
      popUntilLeftParen ops out = some (out2, ops2) →
      out2.filter isNumOrPct = out.filter isNumOrPct ∧
      ops2.all (fun t => !isNumOrPct t) = true := by
  intro ops
  induction ops with
  | nil => intro out out2 ops2 h hp; simp [popUntilLeftParen] at hp
  | cons t restOps ih =>
    intro out out2 ops2 h hp
    rw [List.all_cons] at h
    obtain ⟨ht, hrest⟩ := Bool.and_eq_true_iff.mp h
    cases t with
    | left_paren =>
      simp only [popUntilLeftParen, Option.some.injEq, Prod.mk.injEq] at hp
      exact ⟨hp.1 ▸ rfl, hp.2 ▸ hrest⟩
    | operator o2 =>
      simp only [popUntilLeftParen] at hp
      obtain ⟨h1, h2⟩ := ih (out ++ [.operator o2]) out2 ops2 hrest hp
      refine ⟨?_, h2⟩
      rw [h1, List.filter_append]
      simp [isNumOrPct]
    | number v =>
      simp only [isNumOrPct] at ht
      simp at ht
    | percent =>
      simp only [isNumOrPct] at ht
      simp at ht
    | right_paren =>
      simp only [popUntilLeftParen] at hp
      obtain ⟨h1, h2⟩ := ih (out ++ [.right_paren]) out2 ops2 hrest hp
      refine ⟨?_, h2⟩
      rw [h1, List.filter_append]
      simp [isNumOrPct]

theorem drainOps_filter :
    ∀ (ops out res : List Token), ops.all (fun t => !isNumOrPct t) = true →
      drainOps ops out = .ok res →
      res.filter isNumOrPct = out.filter isNumOrPct := by
  intro ops
  induction ops with
  | nil =>
    intro out res h hd
    simp only [drainOps, Except.ok.injEq] at hd
    rw [hd]
  | cons t restOps ih =>
    intro out res h hd
    rw [List.all_cons] at h
    obtain ⟨ht, hrest⟩ := Bool.and_eq_true_iff.mp h
    cases t with
    | left_paren => simp [drainOps] at hd
    | right_paren => simp [drainOps] at hd
    | operator o2 =>
      simp only [drainOps] at hd
      rw [ih (out ++ [.operator o2]) res hrest hd, List.filter_append]
      simp [isNumOrPct]
    | number v =>
      simp only [isNumOrPct] at ht
      simp at ht
    | percent =>
      simp only [isNumOrPct] at ht
      simp at ht

theorem toRPNGo_filter :
    ∀ (ts out ops res : List Token), toRPNGo ts out ops = .ok res →
      ops.all (fun t => !isNumOrPct t) = true →
      res.filter isNumOrPct = out.filter isNumOrPct ++ ts.filter isNumOrPct := by
  intro ts
  induction ts with
  | nil =>
    intro out ops res h hops
    rw [drainOps_filter ops out res hops h]
    simp
  | cons t rest ih =>
    intro out ops res h hops
    cases t with
    | number v =>
      simp only [toRPNGo] at h
      rw [ih (out ++ [.number v]) ops res h hops, List.filter_append]
      simp [List.filter_cons, isNumOrPct]
    | percent =>
      simp only [toRPNGo] at h
      rw [ih (out ++ [.percent]) ops res h hops, List.filter_append]
      simp [List.filter_cons, isNumOrPct]
    | operator o1 =>
      simp only [toRPNGo] at h
      obtain ⟨h1, h2⟩ := popHigher_filter o1 ops out hops
      have hops' : (Token.operator o1 :: (popHigher o1 ops out).2).all
          (fun t => !isNumOrPct t) = true := by
        rw [List.all_cons, h2]
        rfl
      rw [ih _ _ res h hops', h1]
      simp [List.filter_cons, isNumOrPct]
    | left_paren =>
      simp only [toRPNGo] at h
      have hops' : (Token.left_paren :: ops).all (fun t => !isNumOrPct t) = true := by
        rw [List.all_cons, hops]
        rfl
      rw [ih _ _ res h hops']
      simp [List.filter_cons, isNumOrPct]
    | right_paren =>
      simp only [toRPNGo] at h
      cases hp : popUntilLeftParen ops out with
      | none => rw [hp] at h; simp at h
      | some p =>
        rw [hp] at h
        obtain ⟨h1, h2⟩ := popUntilLeftParen_filter ops out p.1 p.2 hops (by
          rw [hp])
        rw [ih p.1 p.2 res h h2, h1]
        simp [List.filter_cons, isNumOrPct]

/-- C10: the parser keeps Number and Percent tokens out of its operator
stack, so on success the Number/Percent subsequence of the output equals
that of the input: numbers appear in the same relative order and each
percent keeps its scan-order position among them. -/
theorem c10_output_order (ts res : List Token) :
    toRPN ts = .ok res → res.filter isNumOrPct = ts.filter isNumOrPct := by
  intro h
  have := toRPNGo_filter ts [] [] res h rfl
  simpa using this

/-- C10 witness: the theorem applied to the token sequence of "2+3%". -/
theorem c10_output_order_witness :
    ([Token.number "2", Token.number "3", Token.percent,
      Token.operator '+']).filter isNumOrPct =
    ([Token.number "2", Token.operator '+', Token.number "3",
      Token.percent]).filter isNumOrPct :=
  c10_output_order
    [Token.number "2", Token.operator '+', Token.number "3", Token.percent]
    [Token.number "2", Token.number "3", Token.percent, Token.operator '+']
    (by decide)

-- § Decimal digit lemmas (toward C4)

